import Mathlib

/-!
Shallow embedding of the nsq-consumer wrapper (consumer.go).

The repository is a configuration and lifecycle wrapper around the external
go-nsq client.  Pure configuration logic (NewConsumer, Set, SetMap, SetLogger,
split) is translated directly.  The external collaborator (the nsq package:
nsq.NewConsumer, nsq.Config.Set, client.ConnectToNSQDs,
client.ConnectToNSQLookupds) is represented by oracle functions supplied as
parameters, and the outbound calls Start/connect make are recorded in an
explicit event trace so that claims about which external calls are attempted
can be stated.

Go interface values are modelled by the Value type below: the runtime shapes
the wrapper inspects (string, int, slice of strings) plus a catch-all for any
other runtime type.  Error values are modelled by their message strings.
-/

/-- Model of nsq.LogLevel (Debug, Info, Warning, Error). -/
inductive LogLevel : Type
  | debug
  | info
  | warning
  | error
deriving DecidableEq, Repr

/-- Model of a Go interface value as inspected by Consumer.Set and split:
a string, an int, a slice of strings, or any other runtime type (the tag
distinguishes distinct values of other types; the wrapper never looks inside). -/
inductive Value : Type
  | str (s : String)
  | int (n : Int)
  | strList (l : List String)
  | other (tag : String)
deriving DecidableEq, Repr

/-- Model of fmt.Errorf with a quoted option name: %q-quotes the key (the keys
involved contain no characters needing escapes) and appends the message. -/
def errMsg (option what : String) : String :=
  "\"" ++ option ++ "\": " ++ what

/-- Behaviour of the external nsq.Config option setter (default case of
Consumer.Set): given the current config, a key and a value, it either returns
the updated config or an error message. -/
abbrev CfgSet (Cfg : Type) : Type :=
  Cfg → String → Value → Except String Cfg

/-- Model of the Consumer struct from consumer.go.  Cfg models *nsq.Config,
Log models the logger interface, Client models *nsq.Consumer; all three are
opaque to the wrapper.  err is the deferred error (nil modelled as none). -/
structure Consumer (Cfg Log Client : Type) : Type where
  client : Option Client
  config : Cfg
  nsqds : List String
  nsqlookupds : List String
  concurrency : Int
  channel : String
  topic : String
  level : LogLevel
  log : Log
  err : Option String
deriving DecidableEq, Repr

/-- Model of NewConsumer(topic, channel): defaults are the standard-error
logger (defaultLog stands for log.New(os.Stderr, ...)), a fresh nsq config
(defaultConfig stands for nsq.NewConfig()), level Info, concurrency 1, empty
address lists and no deferred error. -/
def NewConsumer {Cfg Log Client : Type} (defaultLog : Log) (defaultConfig : Cfg)
    (topic channel : String) : Consumer Cfg Log Client :=
  { client := none
    config := defaultConfig
    nsqds := []
    nsqlookupds := []
    concurrency := 1
    channel := channel
    topic := topic
    level := LogLevel.info
    log := defaultLog
    err := none }

/-- Model of Consumer.SetLogger: replaces the level and the logger
unconditionally. -/
def Consumer.SetLogger {Cfg Log Client : Type} (c : Consumer Cfg Log Client)
    (log : Log) (level : LogLevel) : Consumer Cfg Log Client :=
  { c with level := level, log := log }

/-- The delimiter predicate passed by split to strings.FieldsFunc: true on a
comma or a space. -/
def isDelim (r : Char) : Bool :=
  r = ',' || r = ' '

/-- Model of the scanning loop of strings.FieldsFunc: walk the characters,
accumulating the current field and emitting it whenever a delimiter (or the end
of the string) is reached; empty fields are never emitted. -/
def fieldsFuncAux (p : Char → Bool) : List Char → List Char → List (List Char)
  | [], acc => if acc.isEmpty then [] else [acc]
  | c :: rest, acc =>
    if p c then
      if acc.isEmpty then fieldsFuncAux p rest []
      else acc :: fieldsFuncAux p rest []
    else fieldsFuncAux p rest (acc ++ [c])

/-- Model of strings.FieldsFunc(s, p): the substrings of s separated by
characters satisfying p, with empty fields discarded. -/
def fieldsFunc (p : Char → Bool) (s : String) : List String :=
  (fieldsFuncAux p s.data []).map (fun cs => String.mk cs)

/-- Model of the split helper from consumer.go: a slice of strings is returned
verbatim, a string is split by strings.FieldsFunc at commas and spaces, and any
other value shape is an error. -/
def split : Value → Except String (List String)
  | Value.strList l => Except.ok l
  | Value.str s => Except.ok (fieldsFunc isDelim s)
  | Value.int _ => Except.error "expected string or slice of strings"
  | Value.other _ => Except.error "expected string or slice of strings"

/-- Model of Consumer.Set from consumer.go: a switch on the option name.  Each
recognized key checks the runtime shape of the value and either mutates its
field or assigns the deferred error; unrecognized keys are forwarded to the
external config setter, whose error (if any) is assigned to the deferred
error.  Every error branch overwrites err unconditionally, exactly as the
assignments c.err = ... do in the source. -/
def Consumer.Set {Cfg Log Client : Type} (cfgSet : CfgSet Cfg)
    (c : Consumer Cfg Log Client) (option : String) (value : Value) :
    Consumer Cfg Log Client :=
  if option = "topic" then
    match value with
    | Value.str s => { c with topic := s }
    | _ => { c with err := some (errMsg option "expected string") }
  else if option = "channel" then
    match value with
    | Value.str s => { c with channel := s }
    | _ => { c with err := some (errMsg option "expected string") }
  else if option = "concurrency" then
    match value with
    | Value.int n => { c with concurrency := n }
    | _ => { c with err := some (errMsg option "expected integer") }
  else if option = "nsqd" then
    match value with
    | Value.str s => { c with nsqds := [s] }
    | _ => { c with err := some (errMsg option "expected string") }
  else if option = "nsqlookupd" then
    match value with
    | Value.str s => { c with nsqlookupds := [s] }
    | _ => { c with err := some (errMsg option "expected string") }
  else if option = "nsqds" then
    match split value with
    | Except.ok s => { c with nsqds := s }
    | Except.error e => { c with err := some (errMsg option e) }
  else if option = "nsqlookupds" then
    match split value with
    | Except.ok s => { c with nsqlookupds := s }
    | Except.error e => { c with err := some (errMsg option e) }
  else
    match cfgSet c.config option value with
    | Except.ok cfg => { c with config := cfg }
    | Except.error e => { c with err := some e }

/-- Model of Consumer.SetMap: applies Set for every entry.  Go map iteration
order is unspecified; the list argument fixes one iteration order. -/
def Consumer.SetMap {Cfg Log Client : Type} (cfgSet : CfgSet Cfg)
    (c : Consumer Cfg Log Client) (options : List (String × Value)) :
    Consumer Cfg Log Client :=
  options.foldl (fun acc kv => acc.Set cfgSet kv.1 kv.2) c

/-- The exact error message of Consumer.connect when no address is
configured. -/
def missingTargetError : String :=
  "at least one \"nsqd\" or \"nsqlookupd\" address must be specified"

/-- Outbound calls Start and connect make on the external nsq library, in
order.  The handler argument of AddConcurrentHandlers is an opaque value the
wrapper never inspects and is omitted from the event. -/
inductive Event (Cfg Log : Type) : Type
  | construct (topic channel : String) (config : Cfg)
  | setClientLogger (log : Log) (level : LogLevel)
  | addConcurrentHandlers (concurrency : Int)
  | connectToNSQDs (addrs : List String)
  | connectToNSQLookupds (addrs : List String)
deriving DecidableEq, Repr

/-- Oracles for the outcomes of the external nsq calls: client construction,
direct connection and discovery connection.  A connection outcome of none
means success; some e is the error message e. -/
structure NSQEnv (Cfg Client : Type) : Type where
  newConsumer : String → String → Cfg → Except String Client
  connectToNSQDs : Client → List String → Option String
  connectToNSQLookupds : Client → List String → Option String

/-- Model of Consumer.connect.  In the source it calls methods of c.client;
connect is private and reached only from Start, which has just assigned the
freshly constructed client, passed here explicitly as client.  Returns the
error result (none for nil) and the trace of connection calls attempted. -/
def Consumer.connect {Cfg Log Client : Type} (env : NSQEnv Cfg Client)
    (c : Consumer Cfg Log Client) (client : Client) :
    Option String × List (Event Cfg Log) :=
  if c.nsqds.length = 0 ∧ c.nsqlookupds.length = 0 then
    (some missingTargetError, [])
  else if c.nsqds.length > 0 then
    match env.connectToNSQDs client c.nsqds with
    | some e => (some e, [Event.connectToNSQDs c.nsqds])
    | none =>
      if c.nsqlookupds.length > 0 then
        (env.connectToNSQLookupds client c.nsqlookupds,
          [Event.connectToNSQDs c.nsqds, Event.connectToNSQLookupds c.nsqlookupds])
      else
        (none, [Event.connectToNSQDs c.nsqds])
  else
    (env.connectToNSQLookupds client c.nsqlookupds,
      [Event.connectToNSQLookupds c.nsqlookupds])

/-- Model of Consumer.Start: returns the deferred error if set (no external
call), otherwise constructs the client (propagating failure), stores it in
c.client, attaches the logger, registers the handler with the configured
concurrency, and delegates to connect.  The result is the final consumer
state, the returned error (none for nil) and the trace of external calls. -/
def Consumer.Start {Cfg Log Client : Type} (env : NSQEnv Cfg Client)
    (c : Consumer Cfg Log Client) :
    Consumer Cfg Log Client × Option String × List (Event Cfg Log) :=
  match c.err with
  | some e => (c, some e, [])
  | none =>
    match env.newConsumer c.topic c.channel c.config with
    | Except.error e => (c, some e, [Event.construct c.topic c.channel c.config])
    | Except.ok client =>
      (({ c with client := some client } : Consumer Cfg Log Client),
        (Consumer.connect env ({ c with client := some client }) client).1,
        Event.construct c.topic c.channel c.config ::
        Event.setClientLogger c.log c.level ::
        Event.addConcurrentHandlers c.concurrency ::
        (Consumer.connect env ({ c with client := some client }) client).2)

theorem dropWhile_length_le {α : Type} (p : α → Bool) :
    ∀ l : List α, (List.dropWhile p l).length ≤ l.length
  | [] => by simp [List.dropWhile]
  | a :: rest => by
    rw [List.dropWhile_cons]
    by_cases h : p a = true
    · simp only [h, if_true]
      exact Nat.le_succ_of_le (dropWhile_length_le p rest)
    · simp [h]

theorem dropWhile_length_lt_cons {α : Type} (p : α → Bool) (c : α) (rest : List α) :
    (List.dropWhile p rest).length < (c :: rest).length := by
  have h := dropWhile_length_le p rest
  simp only [List.length_cons]
  omega

/-- The claim-side characterization of the address-list split: the sequence of
maximal runs of characters on which p is false (splitting at every run of
delimiter characters discards empty fields implicitly). -/
def maximalRuns (p : Char → Bool) : List Char → List (List Char)
  | [] => []
  | c :: rest =>
    if p c then maximalRuns p rest
    else (c :: rest.takeWhile (fun d => !p d)) ::
      maximalRuns p (rest.dropWhile (fun d => !p d))
termination_by l => l.length
decreasing_by
  · simp only [List.length_cons]
    exact Nat.lt_succ_self _
  · exact dropWhile_length_lt_cons (fun d => !p d) c rest

theorem maximalRuns_nil (p : Char → Bool) : maximalRuns p [] = [] := by
  rw [maximalRuns.eq_def]

theorem maximalRuns_cons_delim (p : Char → Bool) (c : Char) (rest : List Char)
    (h : p c = true) : maximalRuns p (c :: rest) = maximalRuns p rest := by
  rw [maximalRuns.eq_def]
  simp [h]

theorem maximalRuns_cons_nondelim (p : Char → Bool) (c : Char) (rest : List Char)
    (h : p c = false) :
    maximalRuns p (c :: rest) =
      (c :: rest.takeWhile (fun d => !p d)) ::
        maximalRuns p (rest.dropWhile (fun d => !p d)) := by
  rw [maximalRuns.eq_def]
  simp [h]

theorem fieldsFuncAux_eq_maximalRuns (p : Char → Bool) :
    ∀ (l acc : List Char),
      fieldsFuncAux p l acc =
        if acc.isEmpty then maximalRuns p l
        else (acc ++ l.takeWhile (fun d => !p d)) ::
          maximalRuns p (l.dropWhile (fun d => !p d))
  | [], acc => by
    cases acc with
    | nil => simp [fieldsFuncAux, maximalRuns_nil]
    | cons a as => simp [fieldsFuncAux, maximalRuns_nil]
  | c :: rest, acc => by
    have ih := fieldsFuncAux_eq_maximalRuns p rest
    cases hp : p c with
    | true =>
      cases acc with
      | nil =>
        simp [fieldsFuncAux, hp, ih [], maximalRuns_cons_delim p c rest hp]
      | cons a as =>
        simp only [fieldsFuncAux, hp, if_true, List.isEmpty_cons, if_neg]
        simp [ih [], maximalRuns_cons_delim p c rest hp,
          List.takeWhile_cons, List.dropWhile_cons, hp]
    | false =>
      have hcons := ih (acc ++ [c])
      have hne : ((acc ++ [c]).isEmpty) = false := by
        cases acc <;> rfl
      rw [hne] at hcons
      simp only [Bool.false_eq_true, if_false] at hcons
      cases acc with
      | nil =>
        simp only [fieldsFuncAux, hp, Bool.false_eq_true, if_false,
          List.isEmpty_nil, if_true, List.nil_append] at hcons ⊢
        rw [hcons, maximalRuns_cons_nondelim p c rest hp]
        simp
      | cons a as =>
        simp only [fieldsFuncAux, hp, Bool.false_eq_true, if_false,
          List.isEmpty_cons, List.takeWhile_cons, List.dropWhile_cons] at hcons ⊢
        rw [hcons]
        simp [hp]

theorem fieldsFunc_eq_maximalRuns (p : Char → Bool) (s : String) :
    fieldsFunc p s = (maximalRuns p s.data).map (fun cs => String.mk cs) := by
  unfold fieldsFunc
  rw [fieldsFuncAux_eq_maximalRuns]
  simp

/-- The option keys recognized by the switch in Consumer.Set. -/
inductive OptKey : Type
  | topic
  | channel
  | concurrency
  | nsqd
  | nsqlookupd
  | nsqds
  | nsqlookupds
deriving DecidableEq, Repr

/-- The string form of a recognized key, as matched by the switch. -/
def keyName : OptKey → String
  | OptKey.topic => "topic"
  | OptKey.channel => "channel"
  | OptKey.concurrency => "concurrency"
  | OptKey.nsqd => "nsqd"
  | OptKey.nsqlookupd => "nsqlookupd"
  | OptKey.nsqds => "nsqds"
  | OptKey.nsqlookupds => "nsqlookupds"

/-- Whether a value's runtime shape matches what Consumer.Set expects for the
given recognized key. -/
def shapeOK : OptKey → Value → Bool
  | OptKey.topic, Value.str _ => true
  | OptKey.channel, Value.str _ => true
  | OptKey.concurrency, Value.int _ => true
  | OptKey.nsqd, Value.str _ => true
  | OptKey.nsqlookupd, Value.str _ => true
  | OptKey.nsqds, Value.str _ => true
  | OptKey.nsqds, Value.strList _ => true
  | OptKey.nsqlookupds, Value.str _ => true
  | OptKey.nsqlookupds, Value.strList _ => true
  | _, _ => false

/-- The expected-type text Consumer.Set puts in the deferred error for the
given recognized key. -/
def expectedMsg : OptKey → String
  | OptKey.topic => "expected string"
  | OptKey.channel => "expected string"
  | OptKey.concurrency => "expected integer"
  | OptKey.nsqd => "expected string"
  | OptKey.nsqlookupd => "expected string"
  | OptKey.nsqds => "expected string or slice of strings"
  | OptKey.nsqlookupds => "expected string or slice of strings"

/-- The recognized key named by an option string, if any, in the order the
switch in Consumer.Set tests them. -/
def keyOfName (o : String) : Option OptKey :=
  if o = "topic" then some OptKey.topic
  else if o = "channel" then some OptKey.channel
  else if o = "concurrency" then some OptKey.concurrency
  else if o = "nsqd" then some OptKey.nsqd
  else if o = "nsqlookupd" then some OptKey.nsqlookupd
  else if o = "nsqds" then some OptKey.nsqds
  else if o = "nsqlookupds" then some OptKey.nsqlookupds
  else none

/-- The error one Consumer.Set call records, if any: a shape mismatch on a
recognized key, or the external config setter's error on any other key. -/
def setCallErr {Cfg : Type} (cfgSet : CfgSet Cfg) (cfg : Cfg) (o : String)
    (v : Value) : Option String :=
  match keyOfName o with
  | some k => if shapeOK k v then none else some (errMsg o (expectedMsg k))
  | none =>
    match cfgSet cfg o v with
    | Except.ok _ => none
    | Except.error e => some e

theorem Set_err {Cfg Log Client : Type} (cfgSet : CfgSet Cfg)
    (c : Consumer Cfg Log Client) (o : String) (v : Value) :
    (c.Set cfgSet o v).err =
      match setCallErr cfgSet c.config o v with
      | some m => some m
      | none => c.err := by
  unfold Consumer.Set setCallErr keyOfName
  split_ifs with h1 h2 h3 h4 h5 h6 h7
  · cases v <;> simp [shapeOK, expectedMsg, split]
  · cases v <;> simp [shapeOK, expectedMsg, split]
  · cases v <;> simp [shapeOK, expectedMsg, split]
  · cases v <;> simp [shapeOK, expectedMsg, split]
  · cases v <;> simp [shapeOK, expectedMsg, split]
  · cases v <;> simp [shapeOK, expectedMsg, split]
  · cases v <;> simp [shapeOK, expectedMsg, split]
  · rcases hcs : cfgSet c.config o v with cfg | e <;> simp [hcs]

/-- One configuration call in the setup phase of the builder: SetLogger, Set,
or SetMap (with a fixed iteration order for the map). -/
inductive Call (Log : Type) : Type
  | set (option : String) (value : Value)
  | setLogger (log : Log) (level : LogLevel)
  | setMap (options : List (String × Value))
deriving DecidableEq, Repr

/-- Applies one configuration call to a consumer. -/
def applyCall {Cfg Log Client : Type} (cfgSet : CfgSet Cfg)
    (c : Consumer Cfg Log Client) : Call Log → Consumer Cfg Log Client
  | Call.set o v => c.Set cfgSet o v
  | Call.setLogger l lv => c.SetLogger l lv
  | Call.setMap kvs => c.SetMap cfgSet kvs

/-- Applies a sequence of configuration calls, first to last. -/
def applyCalls {Cfg Log Client : Type} (cfgSet : CfgSet Cfg)
    (c : Consumer Cfg Log Client) (calls : List (Call Log)) :
    Consumer Cfg Log Client :=
  calls.foldl (applyCall cfgSet) c

/-- A key-value pair that cannot drive concurrency below 1: any pair whose key
is not "concurrency", whose value is not an int, or whose int value is at
least 1. -/
def concurrencySafeKV (kv : String × Value) : Bool :=
  match kv with
  | (o, Value.int n) => if o = "concurrency" then decide (1 ≤ n) else true
  | _ => true

/-- A configuration call all of whose key-value pairs are concurrency-safe. -/
def concurrencySafe {Log : Type} : Call Log → Bool
  | Call.set o v => concurrencySafeKV (o, v)
  | Call.setLogger _ _ => true
  | Call.setMap kvs => kvs.all concurrencySafeKV

theorem Set_concurrency_safe {Cfg Log Client : Type} (cfgSet : CfgSet Cfg)
    (c : Consumer Cfg Log Client) (o : String) (v : Value)
    (h1 : 1 ≤ c.concurrency) (h2 : concurrencySafeKV (o, v) = true) :
    1 ≤ (c.Set cfgSet o v).concurrency := by
  unfold Consumer.Set
  split_ifs with hk1 hk2 hk3 hk4 hk5 hk6 hk7
  · cases v <;> simp_all [concurrencySafeKV]
  · cases v <;> simp_all [concurrencySafeKV]
  · cases v <;> simp_all [concurrencySafeKV]
  · cases v <;> simp_all [concurrencySafeKV]
  · cases v <;> simp_all [concurrencySafeKV]
  · cases v <;> simp_all [concurrencySafeKV, split]
  · cases v <;> simp_all [concurrencySafeKV, split]
  · rcases hcs : cfgSet c.config o v with cfg | e <;> simp_all

theorem SetMap_concurrency_safe {Cfg Log Client : Type} (cfgSet : CfgSet Cfg)
    (kvs : List (String × Value)) :
    ∀ c : Consumer Cfg Log Client, 1 ≤ c.concurrency →
      kvs.all concurrencySafeKV = true →
      1 ≤ (c.SetMap cfgSet kvs).concurrency := by
  induction kvs with
  | nil =>
    intro c h1 _
    simpa [Consumer.SetMap] using h1
  | cons kv rest ih =>
    intro c h1 h2
    simp only [List.all_cons, Bool.and_eq_true] at h2
    have hstep := Set_concurrency_safe cfgSet c kv.1 kv.2 h1 h2.1
    simpa [Consumer.SetMap] using ih (c.Set cfgSet kv.1 kv.2) hstep h2.2

theorem applyCall_concurrency_safe {Cfg Log Client : Type} (cfgSet : CfgSet Cfg)
    (c : Consumer Cfg Log Client) (call : Call Log)
    (h1 : 1 ≤ c.concurrency) (h2 : concurrencySafe call = true) :
    1 ≤ (applyCall cfgSet c call).concurrency := by
  cases call with
  | set o v => exact Set_concurrency_safe cfgSet c o v h1 h2
  | setLogger l lv => simpa [applyCall, Consumer.SetLogger] using h1
  | setMap kvs => exact SetMap_concurrency_safe cfgSet kvs c h1 h2

theorem applyCalls_concurrency_safe {Cfg Log Client : Type} (cfgSet : CfgSet Cfg)
    (calls : List (Call Log)) :
    ∀ c : Consumer Cfg Log Client, 1 ≤ c.concurrency →
      (∀ call ∈ calls, concurrencySafe call = true) →
      1 ≤ (applyCalls cfgSet c calls).concurrency := by
  induction calls with
  | nil =>
    intro c h1 _
    simpa [applyCalls] using h1
  | cons call rest ih =>
    intro c h1 h2
    have hstep := applyCall_concurrency_safe cfgSet c call h1
      (h2 call (List.mem_cons_self call rest))
    simpa [applyCalls] using
      ih (applyCall cfgSet c call) hstep (fun x hx => h2 x (List.mem_cons_of_mem call hx))

/-- A trivial external config setter for concrete witnesses: always succeeds
and leaves the (unit) config unchanged. -/
def unitCfgSet : CfgSet Unit := fun _ _ _ => Except.ok ()

/-- An external environment for concrete witnesses in which construction and
both connection phases succeed. -/
def okEnv : NSQEnv Unit Unit :=
  { newConsumer := fun _ _ _ => Except.ok ()
    connectToNSQDs := fun _ _ => none
    connectToNSQLookupds := fun _ _ => none }

/-- An external environment for concrete witnesses in which construction
succeeds but the direct connection phase fails with a dial error. -/
def failDirectEnv : NSQEnv Unit Unit :=
  { newConsumer := fun _ _ _ => Except.ok ()
    connectToNSQDs := fun _ _ => some "dial tcp: connection refused"
    connectToNSQLookupds := fun _ _ => none }

/-- A freshly created consumer for concrete witnesses. -/
def consumerA : Consumer Unit Unit Unit := NewConsumer () () "events" "workers"

/-- A consumer with one direct address and one discovery address configured,
for concrete witnesses. -/
def consumerB : Consumer Unit Unit Unit :=
  (consumerA.Set unitCfgSet "nsqd" (Value.str "127.0.0.1:4150")).Set unitCfgSet
    "nsqlookupd" (Value.str "127.0.0.1:4161")

theorem maximalRuns_all_sat (p : Char → Bool) :
    ∀ l : List Char, (∀ ch ∈ l, p ch = true) → maximalRuns p l = []
  | [], _ => maximalRuns_nil p
  | c :: rest, h => by
    rw [maximalRuns_cons_delim p c rest (h c (List.mem_cons_self c rest))]
    exact maximalRuns_all_sat p rest (fun ch hch => h ch (List.mem_cons_of_mem c hch))

/-- C2: under the keys "nsqds" and "nsqlookupds", a string value is stored as
the sequence of maximal runs of characters containing neither comma nor space
(empty fields discarded, so "a,b c" gives ["a","b","c"] and "a,,  b" gives
["a","b"]), a value that is already a sequence of strings is stored verbatim,
and any other value shape is a configuration error. -/
theorem C2_address_list_parsing {Cfg Log Client : Type} (cfgSet : CfgSet Cfg)
    (c : Consumer Cfg Log Client) (s : String) (l : List String) (v : Value)
    (hv : shapeOK OptKey.nsqds v = false) :
    (c.Set cfgSet "nsqds" (Value.str s)).nsqds =
      (maximalRuns isDelim s.data).map (fun cs => String.mk cs) ∧
    (c.Set cfgSet "nsqds" (Value.str s)).err = c.err ∧
    (c.Set cfgSet "nsqlookupds" (Value.str s)).nsqlookupds =
      (maximalRuns isDelim s.data).map (fun cs => String.mk cs) ∧
    (c.Set cfgSet "nsqds" (Value.strList l)).nsqds = l ∧
    (c.Set cfgSet "nsqds" (Value.strList l)).err = c.err ∧
    (c.Set cfgSet "nsqlookupds" (Value.strList l)).nsqlookupds = l ∧
    (c.Set cfgSet "nsqds" v).err =
      some (errMsg "nsqds" "expected string or slice of strings") ∧
    (c.Set cfgSet "nsqds" v).nsqds = c.nsqds ∧
    fieldsFunc isDelim "a,b c" = ["a", "b", "c"] ∧
    fieldsFunc isDelim "a,,  b" = ["a", "b"] := by
  refine ⟨?_, ?_, ?_, ?_, ?_, ?_, ?_, ?_, by decide, by decide⟩
  · simp [Consumer.Set, split, fieldsFunc_eq_maximalRuns]
  · simp [Consumer.Set, split]
  · simp [Consumer.Set, split, fieldsFunc_eq_maximalRuns]
  · simp [Consumer.Set, split]
  · simp [Consumer.Set, split]
  · simp [Consumer.Set, split]
  · cases v <;> simp_all [shapeOK, Consumer.Set, split]
  · cases v <;> simp_all [shapeOK, Consumer.Set, split]

/-- Closed witness for C2 at concrete inputs: the shape-mismatch hypothesis
holds for an int value, and the conclusion holds at a fresh consumer with the
example strings of the claim. -/
theorem C2_witness :
    shapeOK OptKey.nsqds (Value.int 5) = false ∧
    ((consumerA.Set unitCfgSet "nsqds" (Value.str "a,b c")).nsqds =
        (maximalRuns isDelim ("a,b c").data).map (fun cs => String.mk cs) ∧
      (consumerA.Set unitCfgSet "nsqds" (Value.str "a,b c")).err = consumerA.err ∧
      (consumerA.Set unitCfgSet "nsqlookupds" (Value.str "a,b c")).nsqlookupds =
        (maximalRuns isDelim ("a,b c").data).map (fun cs => String.mk cs) ∧
      (consumerA.Set unitCfgSet "nsqds" (Value.strList ["x", "y"])).nsqds = ["x", "y"] ∧
      (consumerA.Set unitCfgSet "nsqds" (Value.strList ["x", "y"])).err = consumerA.err ∧
      (consumerA.Set unitCfgSet "nsqlookupds" (Value.strList ["x", "y"])).nsqlookupds =
        ["x", "y"] ∧
      (consumerA.Set unitCfgSet "nsqds" (Value.int 5)).err =
        some (errMsg "nsqds" "expected string or slice of strings") ∧
      (consumerA.Set unitCfgSet "nsqds" (Value.int 5)).nsqds = consumerA.nsqds ∧
      fieldsFunc isDelim "a,b c" = ["a", "b", "c"] ∧
      fieldsFunc isDelim "a,,  b" = ["a", "b"]) :=
  ⟨by decide,
    C2_address_list_parsing unitCfgSet consumerA "a,b c" ["x", "y"] (Value.int 5)
      (by decide)⟩

/-- C3: for every recognized key and every value of the wrong runtime shape,
Set mutates no field other than recording the deferred error naming the key
and the expected type, and Start then returns exactly that error without
making any external call. -/
theorem C3_type_mismatch_defers {Cfg Log Client : Type} (cfgSet : CfgSet Cfg)
    (env : NSQEnv Cfg Client) (c : Consumer Cfg Log Client) (k : OptKey)
    (v : Value) (h : shapeOK k v = false) :
    c.Set cfgSet (keyName k) v =
      { c with err := some (errMsg (keyName k) (expectedMsg k)) } ∧
    ((c.Set cfgSet (keyName k) v).Start env).2.1 =
      some (errMsg (keyName k) (expectedMsg k)) ∧
    ((c.Set cfgSet (keyName k) v).Start env).2.2 = [] := by
  have h1 : c.Set cfgSet (keyName k) v =
      { c with err := some (errMsg (keyName k) (expectedMsg k)) } := by
    cases k <;> cases v <;>
      simp_all [keyName, shapeOK, expectedMsg, Consumer.Set, split]
  refine ⟨h1, ?_, ?_⟩ <;> rw [h1] <;> simp [Consumer.Start]

/-- Closed witness for C3 at a concrete input: an int value under "topic". -/
theorem C3_witness :
    shapeOK OptKey.topic (Value.int 7) = false ∧
    (consumerA.Set unitCfgSet (keyName OptKey.topic) (Value.int 7) =
        { consumerA with
          err := some (errMsg (keyName OptKey.topic) (expectedMsg OptKey.topic)) } ∧
      ((consumerA.Set unitCfgSet (keyName OptKey.topic) (Value.int 7)).Start okEnv).2.1 =
        some (errMsg (keyName OptKey.topic) (expectedMsg OptKey.topic)) ∧
      ((consumerA.Set unitCfgSet (keyName OptKey.topic) (Value.int 7)).Start okEnv).2.2 =
        []) :=
  ⟨by decide,
    C3_type_mismatch_defers unitCfgSet okEnv consumerA OptKey.topic (Value.int 7)
      (by decide)⟩

/-- C7: a second correctly-typed call under "nsqd" overwrites the whole direct
address list with the one-element list of the newer value, and the same
last-write-wins overwrite holds for "nsqlookupd", "nsqds" and "nsqlookupds" on
their respective lists. -/
theorem C7_last_write_wins {Cfg Log Client : Type} (cfgSet : CfgSet Cfg)
    (c : Consumer Cfg Log Client) (x y : String) (u v : Value)
    (lu lv : List String)
    (hu : split u = Except.ok lu) (hv : split v = Except.ok lv) :
    ((c.Set cfgSet "nsqd" (Value.str x)).Set cfgSet "nsqd" (Value.str y)).nsqds =
      [y] ∧
    ((c.Set cfgSet "nsqlookupd" (Value.str x)).Set cfgSet "nsqlookupd"
        (Value.str y)).nsqlookupds = [y] ∧
    ((c.Set cfgSet "nsqds" u).Set cfgSet "nsqds" v).nsqds = lv ∧
    ((c.Set cfgSet "nsqlookupds" u).Set cfgSet "nsqlookupds" v).nsqlookupds =
      lv := by
  refine ⟨?_, ?_, ?_, ?_⟩ <;> simp [Consumer.Set, hu, hv]

/-- Closed witness for C7 at concrete inputs: "x" then "y", and two parsed
lists under the plural keys. -/
theorem C7_witness :
    split (Value.str "a,b") = Except.ok ["a", "b"] ∧
    split (Value.strList ["u", "w"]) = Except.ok ["u", "w"] ∧
    (((consumerA.Set unitCfgSet "nsqd" (Value.str "x")).Set unitCfgSet "nsqd"
          (Value.str "y")).nsqds = ["y"] ∧
      ((consumerA.Set unitCfgSet "nsqlookupd" (Value.str "x")).Set unitCfgSet
          "nsqlookupd" (Value.str "y")).nsqlookupds = ["y"] ∧
      ((consumerA.Set unitCfgSet "nsqds" (Value.str "a,b")).Set unitCfgSet "nsqds"
          (Value.strList ["u", "w"])).nsqds = ["u", "w"] ∧
      ((consumerA.Set unitCfgSet "nsqlookupds" (Value.str "a,b")).Set unitCfgSet
          "nsqlookupds" (Value.strList ["u", "w"])).nsqlookupds = ["u", "w"]) :=
  ⟨by simp only [split, Except.ok.injEq]; decide, rfl,
    C7_last_write_wins unitCfgSet consumerA "x" "y" (Value.str "a,b")
      (Value.strList ["u", "w"]) ["a", "b"] ["u", "w"]
      (by simp only [split, Except.ok.injEq]; decide) rfl⟩

/-- C10: a string value consisting only of commas and spaces (including the
empty string) under "nsqds" records no error and sets the direct address list
to the empty list, silently clearing any previously configured addresses, and
likewise for "nsqlookupds"; a subsequent Start on an otherwise clean state
with no discovery addresses then fails with the missing-target error. -/
theorem C10_delimiter_only_string_clears {Cfg Log Client : Type}
    (cfgSet : CfgSet Cfg) (env : NSQEnv Cfg Client)
    (c : Consumer Cfg Log Client) (client : Client) (s : String)
    (hs : ∀ ch ∈ s.data, ch = ',' ∨ ch = ' ') :
    (c.Set cfgSet "nsqds" (Value.str s)).nsqds = [] ∧
    (c.Set cfgSet "nsqds" (Value.str s)).err = c.err ∧
    (c.Set cfgSet "nsqlookupds" (Value.str s)).nsqlookupds = [] ∧
    (c.Set cfgSet "nsqlookupds" (Value.str s)).err = c.err ∧
    (c.err = none → c.nsqlookupds = [] →
      env.newConsumer c.topic c.channel c.config = Except.ok client →
      ((c.Set cfgSet "nsqds" (Value.str s)).Start env).2.1 =
        some missingTargetError) := by
  have hdelim : ∀ ch ∈ s.data, isDelim ch = true := by
    intro ch hch
    rcases hs ch hch with h | h <;> simp [isDelim, h]
  have hempty : fieldsFunc isDelim s = [] := by
    rw [fieldsFunc_eq_maximalRuns, maximalRuns_all_sat isDelim s.data hdelim]
    rfl
  have hset : c.Set cfgSet "nsqds" (Value.str s) = { c with nsqds := [] } := by
    simp [Consumer.Set, split, hempty]
  have hset2 : c.Set cfgSet "nsqlookupds" (Value.str s) =
      { c with nsqlookupds := [] } := by
    simp [Consumer.Set, split, hempty]
  refine ⟨by rw [hset], by rw [hset], by rw [hset2], by rw [hset2], ?_⟩
  intro h1 h2 h3
  rw [hset]
  simp [Consumer.Start, Consumer.connect, h1, h2, h3]

/-- Closed witness for C10 at a concrete input: the delimiter-only string
", ,  " applied to a consumer that has a non-empty direct address list. -/
theorem C10_witness :
    (∀ ch ∈ (", ,  ").data, ch = ',' ∨ ch = ' ') ∧
    (((consumerA.Set unitCfgSet "nsqd" (Value.str "127.0.0.1:4150")).Set unitCfgSet
          "nsqds" (Value.str ", ,  ")).nsqds = [] ∧
      ((consumerA.Set unitCfgSet "nsqd" (Value.str "127.0.0.1:4150")).Set unitCfgSet
          "nsqds" (Value.str ", ,  ")).err =
        (consumerA.Set unitCfgSet "nsqd" (Value.str "127.0.0.1:4150")).err ∧
      ((consumerA.Set unitCfgSet "nsqd" (Value.str "127.0.0.1:4150")).Set unitCfgSet
          "nsqlookupds" (Value.str ", ,  ")).nsqlookupds = [] ∧
      ((consumerA.Set unitCfgSet "nsqd" (Value.str "127.0.0.1:4150")).Set unitCfgSet
          "nsqlookupds" (Value.str ", ,  ")).err =
        (consumerA.Set unitCfgSet "nsqd" (Value.str "127.0.0.1:4150")).err ∧
      ((consumerA.Set unitCfgSet "nsqd" (Value.str "127.0.0.1:4150")).err = none →
        (consumerA.Set unitCfgSet "nsqd" (Value.str "127.0.0.1:4150")).nsqlookupds = [] →
        okEnv.newConsumer
            (consumerA.Set unitCfgSet "nsqd" (Value.str "127.0.0.1:4150")).topic
            (consumerA.Set unitCfgSet "nsqd" (Value.str "127.0.0.1:4150")).channel
            (consumerA.Set unitCfgSet "nsqd" (Value.str "127.0.0.1:4150")).config =
          Except.ok () →
        (((consumerA.Set unitCfgSet "nsqd" (Value.str "127.0.0.1:4150")).Set unitCfgSet
              "nsqds" (Value.str ", ,  ")).Start okEnv).2.1 =
          some missingTargetError)) :=
  ⟨by decide,
    C10_delimiter_only_string_clears unitCfgSet okEnv
      (consumerA.Set unitCfgSet "nsqd" (Value.str "127.0.0.1:4150")) () ", ,  "
      (by decide)⟩

/-- Counterexample to C1 as stated: two successive wrong-typed Set calls under
distinct keys each record an error; the second call overwrites the first
deferred error, and Start reports the second error, not the first. -/
theorem C1_counterexample :
    ((consumerA.Set unitCfgSet "topic" (Value.int 1)).err =
      some "\"topic\": expected string") ∧
    (((consumerA.Set unitCfgSet "topic" (Value.int 1)).Set unitCfgSet "channel"
        (Value.int 2)).err = some "\"channel\": expected string") ∧
    ((((consumerA.Set unitCfgSet "topic" (Value.int 1)).Set unitCfgSet "channel"
        (Value.int 2)).Start okEnv).2.1 = some "\"channel\": expected string") ∧
    ((((consumerA.Set unitCfgSet "topic" (Value.int 1)).Set unitCfgSet "channel"
        (Value.int 2)).Start okEnv).2.1 ≠ some "\"topic\": expected string") := by
  decide

/-- C1 as amended: once set, the deferred error is never cleared by a later
successful Set call, but a later Set call that itself records an error
overwrites it with the new one; Start reports the most recently recorded
error (last error wins), not the first. -/
theorem C1_amended_last_error_wins {Cfg Log Client : Type} (cfgSet : CfgSet Cfg)
    (env : NSQEnv Cfg Client) (c : Consumer Cfg Log Client) (o : String)
    (v : Value) (e : String) (h : (c.Set cfgSet o v).err = some e) :
    ((c.Set cfgSet o v).err =
      match setCallErr cfgSet c.config o v with
      | some m => some m
      | none => c.err) ∧
    ((c.Set cfgSet o v).Start env).2.1 = some e := by
  refine ⟨Set_err cfgSet c o v, ?_⟩
  simp [Consumer.Start, h]

/-- Closed witness for C1's amended theorem at a concrete input: a wrong-typed
"topic" value on a fresh consumer. -/
theorem C1_amended_witness :
    ((consumerA.Set unitCfgSet "topic" (Value.int 1)).err =
      some "\"topic\": expected string") ∧
    (((consumerA.Set unitCfgSet "topic" (Value.int 1)).err =
        match setCallErr unitCfgSet consumerA.config "topic" (Value.int 1) with
        | some m => some m
        | none => consumerA.err) ∧
      ((consumerA.Set unitCfgSet "topic" (Value.int 1)).Start okEnv).2.1 =
        some "\"topic\": expected string") :=
  ⟨by decide,
    C1_amended_last_error_wins unitCfgSet okEnv consumerA "topic" (Value.int 1)
      "\"topic\": expected string" (by decide)⟩

/-- Counterexample to C8 as stated: the state reached from a fresh consumer by
the single call Set("concurrency", 0) is reachable, yet its concurrency field
is 0, violating the claimed invariant concurrency at least 1. -/
theorem C8_counterexample :
    ((consumerA.Set unitCfgSet "concurrency" (Value.int 0)).concurrency = 0) ∧
    ¬ (1 ≤ (consumerA.Set unitCfgSet "concurrency" (Value.int 0)).concurrency) := by
  decide

/-- C8 as amended: concurrency is 1 at creation, and after any sequence of
SetLogger, Set and SetMap calls in which every integer supplied under the key
"concurrency" is at least 1, the concurrency field is still at least 1; the
code stores any supplied integer verbatim, so the unconditional invariant of
the claim fails. -/
theorem C8_amended_concurrency_invariant {Cfg Log Client : Type}
    (cfgSet : CfgSet Cfg) (defaultLog : Log) (defaultConfig : Cfg)
    (topic channel : String) (calls : List (Call Log))
    (h : ∀ call ∈ calls, concurrencySafe call = true) :
    (NewConsumer defaultLog defaultConfig topic channel :
      Consumer Cfg Log Client).concurrency = 1 ∧
    1 ≤ (applyCalls cfgSet
        (NewConsumer defaultLog defaultConfig topic channel :
          Consumer Cfg Log Client) calls).concurrency := by
  refine ⟨rfl, ?_⟩
  exact applyCalls_concurrency_safe cfgSet calls _ (by simp [NewConsumer]) h

/-- Closed witness for C8's amended theorem at a concrete call sequence
containing a Set, a SetLogger and a SetMap call. -/
theorem C8_amended_witness :
    (∀ call ∈ ([Call.set "concurrency" (Value.int 4),
        Call.setLogger () LogLevel.debug,
        Call.setMap [("topic", Value.str "t"), ("concurrency", Value.int 2)]] :
          List (Call Unit)), concurrencySafe call = true) ∧
    ((NewConsumer () () "events" "workers" : Consumer Unit Unit Unit).concurrency = 1 ∧
      1 ≤ (applyCalls unitCfgSet
          (NewConsumer () () "events" "workers" : Consumer Unit Unit Unit)
          [Call.set "concurrency" (Value.int 4),
            Call.setLogger () LogLevel.debug,
            Call.setMap [("topic", Value.str "t"), ("concurrency", Value.int 2)]]).concurrency) :=
  ⟨by decide,
    C8_amended_concurrency_invariant unitCfgSet () () "events" "workers"
      [Call.set "concurrency" (Value.int 4),
        Call.setLogger () LogLevel.debug,
        Call.setMap [("topic", Value.str "t"), ("concurrency", Value.int 2)]]
      (by decide)⟩

/-- C4: with no deferred error and successful client construction, if both
address lists are empty then Start returns the missing-target error, the
external calls are exactly construction, logger attachment and handler
registration, and no direct-connect or discovery-connect call is attempted. -/
theorem C4_missing_target {Cfg Log Client : Type} (env : NSQEnv Cfg Client)
    (c : Consumer Cfg Log Client) (client : Client)
    (h1 : c.err = none) (h2 : c.nsqds = []) (h3 : c.nsqlookupds = [])
    (h4 : env.newConsumer c.topic c.channel c.config = Except.ok client) :
    (c.Start env).2.1 = some missingTargetError ∧
    (c.Start env).2.2 =
      [Event.construct c.topic c.channel c.config,
        Event.setClientLogger c.log c.level,
        Event.addConcurrentHandlers c.concurrency] ∧
    (∀ a, Event.connectToNSQDs a ∉ (c.Start env).2.2) ∧
    (∀ a, Event.connectToNSQLookupds a ∉ (c.Start env).2.2) := by
  have hres : (c.Start env).2.1 = some missingTargetError := by
    simp [Consumer.Start, h1, h4, Consumer.connect, h2, h3]
  have htr : (c.Start env).2.2 =
      [Event.construct c.topic c.channel c.config,
        Event.setClientLogger c.log c.level,
        Event.addConcurrentHandlers c.concurrency] := by
    simp [Consumer.Start, h1, h4, Consumer.connect, h2, h3]
  refine ⟨hres, htr, ?_, ?_⟩ <;> intro a <;> rw [htr] <;> simp

/-- Closed witness for C4 at a concrete input: a fresh consumer (both address
lists empty) under an environment whose construction succeeds. -/
theorem C4_witness :
    consumerA.err = none ∧ consumerA.nsqds = [] ∧ consumerA.nsqlookupds = [] ∧
    okEnv.newConsumer consumerA.topic consumerA.channel consumerA.config =
      Except.ok () ∧
    ((consumerA.Start okEnv).2.1 = some missingTargetError ∧
      (consumerA.Start okEnv).2.2 =
        [Event.construct consumerA.topic consumerA.channel consumerA.config,
          Event.setClientLogger consumerA.log consumerA.level,
          Event.addConcurrentHandlers consumerA.concurrency] ∧
      (∀ a, Event.connectToNSQDs a ∉ (consumerA.Start okEnv).2.2) ∧
      (∀ a, Event.connectToNSQLookupds a ∉ (consumerA.Start okEnv).2.2)) :=
  ⟨rfl, rfl, rfl, rfl,
    C4_missing_target okEnv consumerA () rfl rfl rfl rfl⟩

/-- C5: with no deferred error, a non-empty direct address list and successful
construction, a failing direct connection phase makes Start return that dial
error immediately; the external calls are exactly construction, logger
attachment, handler registration and the one direct-connect call, so the
discovery phase is never attempted even if discovery addresses are
configured. -/
theorem C5_direct_dial_failure {Cfg Log Client : Type} (env : NSQEnv Cfg Client)
    (c : Consumer Cfg Log Client) (client : Client) (e : String)
    (h1 : c.err = none) (h2 : c.nsqds ≠ [])
    (h3 : env.newConsumer c.topic c.channel c.config = Except.ok client)
    (h4 : env.connectToNSQDs client c.nsqds = some e) :
    (c.Start env).2.1 = some e ∧
    (c.Start env).2.2 =
      [Event.construct c.topic c.channel c.config,
        Event.setClientLogger c.log c.level,
        Event.addConcurrentHandlers c.concurrency,
        Event.connectToNSQDs c.nsqds] ∧
    (∀ a, Event.connectToNSQLookupds a ∉ (c.Start env).2.2) := by
  have hlen : c.nsqds.length > 0 := List.length_pos.mpr h2
  have hne : ¬ (c.nsqds.length = 0 ∧ c.nsqlookupds.length = 0) := by
    intro hcontra
    exact h2 (List.length_eq_zero.mp hcontra.1)
  have hres : (c.Start env).2.1 = some e := by
    simp [Consumer.Start, h1, h3, Consumer.connect, hne, hlen, h4, h2]
  have htr : (c.Start env).2.2 =
      [Event.construct c.topic c.channel c.config,
        Event.setClientLogger c.log c.level,
        Event.addConcurrentHandlers c.concurrency,
        Event.connectToNSQDs c.nsqds] := by
    simp [Consumer.Start, h1, h3, Consumer.connect, hne, hlen, h4, h2]
  refine ⟨hres, htr, ?_⟩
  intro a
  rw [htr]
  simp

/-- Closed witness for C5 at a concrete input: a consumer with one direct and
one discovery address under an environment whose direct dial fails. -/
theorem C5_witness :
    consumerB.err = none ∧ consumerB.nsqds ≠ [] ∧
    failDirectEnv.newConsumer consumerB.topic consumerB.channel consumerB.config =
      Except.ok () ∧
    failDirectEnv.connectToNSQDs () consumerB.nsqds =
      some "dial tcp: connection refused" ∧
    ((consumerB.Start failDirectEnv).2.1 = some "dial tcp: connection refused" ∧
      (consumerB.Start failDirectEnv).2.2 =
        [Event.construct consumerB.topic consumerB.channel consumerB.config,
          Event.setClientLogger consumerB.log consumerB.level,
          Event.addConcurrentHandlers consumerB.concurrency,
          Event.connectToNSQDs consumerB.nsqds] ∧
      (∀ a, Event.connectToNSQLookupds a ∉ (consumerB.Start failDirectEnv).2.2)) :=
  ⟨rfl, by decide, rfl, rfl,
    C5_direct_dial_failure failDirectEnv consumerB () "dial tcp: connection refused"
      rfl (by decide) rfl rfl⟩

/-- C6: if the deferred error is set, Start returns it immediately, leaves the
state unchanged (in particular no client handle is stored) and makes no
external call at all: no construction, no logger attachment, no handler
registration, no connection attempt. -/
theorem C6_deferred_error_short_circuits {Cfg Log Client : Type}
    (env : NSQEnv Cfg Client) (c : Consumer Cfg Log Client) (e : String)
    (h : c.err = some e) :
    c.Start env = (c, some e, []) := by
  simp [Consumer.Start, h]

/-- Closed witness for C6 at a concrete input: a consumer carrying a deferred
error from a wrong-typed "concurrency" value. -/
theorem C6_witness :
    (consumerA.Set unitCfgSet "concurrency" (Value.str "four")).err =
      some "\"concurrency\": expected integer" ∧
    (consumerA.Set unitCfgSet "concurrency" (Value.str "four")).Start okEnv =
      (consumerA.Set unitCfgSet "concurrency" (Value.str "four"),
        some "\"concurrency\": expected integer", []) :=
  ⟨by decide,
    C6_deferred_error_short_circuits okEnv
      (consumerA.Set unitCfgSet "concurrency" (Value.str "four"))
      "\"concurrency\": expected integer" (by decide)⟩

/-- C9: Start leaves every configuration field unchanged (topic, channel,
direct and discovery address lists, concurrency, config, logger, level and the
deferred error); the only field it may write is the client handle, and it
writes it exactly when the deferred error is absent and construction succeeds,
even if a later connection phase fails. -/
theorem C9_start_frame {Cfg Log Client : Type} (env : NSQEnv Cfg Client)
    (c : Consumer Cfg Log Client) :
    (c.Start env).1.topic = c.topic ∧
    (c.Start env).1.channel = c.channel ∧
    (c.Start env).1.nsqds = c.nsqds ∧
    (c.Start env).1.nsqlookupds = c.nsqlookupds ∧
    (c.Start env).1.concurrency = c.concurrency ∧
    (c.Start env).1.config = c.config ∧
    (c.Start env).1.log = c.log ∧
    (c.Start env).1.level = c.level ∧
    (c.Start env).1.err = c.err ∧
    (c.Start env).1.client =
      (match c.err, env.newConsumer c.topic c.channel c.config with
        | none, Except.ok client => some client
        | some _, _ => c.client
        | none, Except.error _ => c.client) := by
  rcases hce : c.err with _ | e
  · rcases hnc : env.newConsumer c.topic c.channel c.config with e2 | client <;>
      simp [Consumer.Start, hce, hnc]
  · simp [Consumer.Start, hce]
